import Mathlib

/-!
Verification development for the Google-Sheets financial-import pipeline
(`supabase/functions/import-google-sheets/index.ts`).

The TypeScript source is shallowly embedded:
  * a spreadsheet cell is `Option String` (a cell absent from a row is `none`);
  * a raw row is `Option (List String)` (the source guards `!row`);
  * JS numbers are modelled as `ℚ` (all values arising here are finite
    decimal fractions);
  * the Supabase store is a list of inserted rows, and the fallible
    delete/insert calls are driven by explicit error oracles;
  * JS `parseFloat` applied to the already-normalized character data is
    modelled exactly on its input alphabet (digits, `.`, `-`): longest valid
    numeric prefix, `none` when no prefix parses.

Field names, string constants ("Entrada", "Pago", "A Vencer",
"Sem identificacao", error messages) follow the source verbatim; the
natural-language spec refers to the same fields by English names
(kind = tipo, status Paid = "Pago", status Due = "A Vencer",
due_date = data, payment_date = datapag, note = obs,
total_imported = total_importado).
-/

namespace ImportGoogleSheets

/-! ### JS string primitives used by the source -/

/-- Whitespace for JS `String.prototype.trim` (the characters that can occur
in practice: space, tab, LF, CR, VT, FF). -/
def isWsChar (c : Char) : Bool :=
  c = ' ' || c = '\t' || c = '\n' || c = '\r' || c = '\x0b' || c = '\x0c'

/-- JS `value.trim()`. -/
def jsTrim (s : String) : String :=
  ⟨((s.data.dropWhile isWsChar).reverse.dropWhile isWsChar).reverse⟩

/-- JS `s.replace(",", ".")` restricted to single characters: replaces only
the first occurrence. -/
def replaceFirst : List Char → Char → Char → List Char
  | [], _, _ => []
  | c :: t, a, b => if c = a then b :: t else c :: replaceFirst t a b

/-- Numeric value of a decimal digit character. -/
def charToDigit (c : Char) : Nat := c.toNat - '0'.toNat

/-- Big-endian value of a list of decimal digit characters
(JS semantics of the digit runs consumed by `parseFloat`). -/
def digitsToNat (cs : List Char) : Nat :=
  cs.foldl (fun n c => 10 * n + charToDigit c) 0

/-! ### `parseCurrency` (source lines 39-44)

```js
const parseCurrency = (value?: string): number => {
  if (!value) return 0;
  const normalized = value.replace(/\./g, "").replace(",", ".").replace(/[^\d.-]/g, "");
  const parsed = Number.parseFloat(normalized);
  return Number.isFinite(parsed) ? parsed : 0;
};
```
-/

/-- The three `replace` steps producing `normalized`: drop every `.`, turn the
first `,` into `.`, keep only digits, `.` and `-`. -/
def normalizeCurrency (cs : List Char) : List Char :=
  (replaceFirst (cs.filter (fun c => c ≠ '.')) ',' '.').filter
    (fun c => c.isDigit || c = '.' || c = '-')

/-- JS `parseFloat` on a string over the alphabet digits / `.` / `-`
(the only characters surviving `normalizeCurrency`), returned as a
mantissa / decimal-exponent pair: `some (m, k)` denotes the value
`m / 10 ^ k`; `none` is `NaN`.  An optional leading `-`, then the longest
run `digits [. digits]`; at least one digit must be consumed. -/
def parseFloatMK (cs : List Char) : Option (ℤ × ℕ) :=
  let neg : Bool := cs.head? = some '-'
  let rest : List Char := if cs.head? = some '-' then cs.tail else cs
  let intDs := rest.takeWhile Char.isDigit
  let rest2 := rest.dropWhile Char.isDigit
  let fracDs : List Char :=
    if rest2.head? = some '.' then rest2.tail.takeWhile Char.isDigit else []
  if intDs.isEmpty && fracDs.isEmpty then none
  else
    let m : ℕ := digitsToNat intDs * 10 ^ fracDs.length + digitsToNat fracDs
    some (if neg then -(m : ℤ) else (m : ℤ), fracDs.length)

/-- Interpret a `parseFloatMK` result as a rational; `none` (`NaN`, which is
not finite) collapses to `0` exactly as `Number.isFinite(parsed) ? parsed : 0`
does. -/
def ratOfMK : Option (ℤ × ℕ) → ℚ
  | none => 0
  | some (m, k) => (m : ℚ) / 10 ^ k

/-- `parseCurrency` from the source.  `!value` is true for an absent cell and
for the empty string. -/
def parseCurrency (value : Option String) : ℚ :=
  match value with
  | none => 0
  | some s => if s = "" then 0 else ratOfMK (parseFloatMK (normalizeCurrency s.data))

/-! ### `parseDate` (source lines 46-54)

```js
const parseDate = (value?: string): string | null => {
  if (!value) return null;
  const trimmed = value.trim();
  if (!trimmed) return null;
  const match = /^(\d{2})\/(\d{2})\/(\d{4})$/.exec(trimmed);
  if (!match) return null;
  const [, day, month, year] = match;
  return `${year}-${month}-${day}`;
};
```
-/

/-- The anchored regex `^(\d{2})\/(\d{2})\/(\d{4})$`: on success returns the
three capture groups (day, month, year). -/
def dateMatch : List Char → Option (String × String × String)
  | [d1, d2, s1, m1, m2, s2, y1, y2, y3, y4] =>
    if d1.isDigit && d2.isDigit && s1 = '/' && m1.isDigit && m2.isDigit &&
        s2 = '/' && y1.isDigit && y2.isDigit && y3.isDigit && y4.isDigit then
      some (⟨[d1, d2]⟩, ⟨[m1, m2]⟩, ⟨[y1, y2, y3, y4]⟩)
    else none
  | _ => none

/-- `parseDate` from the source. -/
def parseDate (value : Option String) : Option String :=
  match value with
  | none => none
  | some s =>
    let trimmed := jsTrim s
    if trimmed = "" then none
    else
      match dateMatch trimmed.data with
      | none => none
      | some (day, month, year) => some (year ++ "-" ++ month ++ "-" ++ day)

/-! ### `buildObservacao` (source lines 56-65)

```js
const buildObservacao = (categoria?: string, parcela?: string): string | null => {
  const categoriaText = categoria?.trim();
  const parcelaText = parcela?.trim();
  if (categoriaText && parcelaText) {
    return `${categoriaText} / ${parcelaText}`;
  }
  return categoriaText || parcelaText || null;
};
```
-/

/-- JS truthiness of a `string | undefined` value: false for `undefined` and
for the empty string. -/
def truthy : Option String → Bool
  | none => false
  | some s => s ≠ ""

/-- `buildObservacao` from the source. -/
def buildObservacao (categoria parcela : Option String) : Option String :=
  let categoriaText := categoria.map jsTrim
  let parcelaText := parcela.map jsTrim
  if truthy categoriaText && truthy parcelaText then
    some (categoriaText.getD "" ++ " / " ++ parcelaText.getD "")
  else if truthy categoriaText then categoriaText
  else if truthy parcelaText then parcelaText
  else none

/-! ### `buildLancamentosEntrada` (source lines 93-137) -/

/-- A raw row: `undefined` or an ordered list of string cells
(`RecebimentoRow = string[] | undefined`). -/
abbrev Row := Option (List String)

/-- `row[i]`: `none` when the index is past the end of the row. -/
def cellAt (cells : List String) (i : ℕ) : Option String := cells.get? i

/-- JS `cell?.trim() || dflt`. -/
def jsTrimOr (cell : Option String) (dflt : String) : String :=
  match cell with
  | none => dflt
  | some s => let t := jsTrim s; if t = "" then dflt else t

/-- JS `cell?.trim() || null`. -/
def trimOrNone (cell : Option String) : Option String :=
  match cell with
  | none => none
  | some s => let t := jsTrim s; if t = "" then none else some t

/-- The normalized ledger record pushed into `registros`; `desc_pontual` is a
dynamic field attached only when non-zero, hence `Option`. -/
structure Registro where
  data : String
  tipo : String
  cliente_fornecedor : String
  descricao : String
  valor : ℚ
  status : String
  unidade : Option String
  obs : Option String
  datapag : Option String
  aluno : Option String
  parcel : Option String
  desc_pontual : Option ℚ
deriving DecidableEq, Repr

/-- The record literal built in the loop body for a row that passed every
check (`registro` plus the conditional `desc_pontual` assignment). -/
def registroOfCells (cells : List String) : Registro :=
  let dataBaixa := parseDate (cellAt cells 5)
  let descPontual := parseCurrency (cellAt cells 16)
  { data := (parseDate (cellAt cells 4)).getD ""
    tipo := "Entrada"
    cliente_fornecedor := jsTrimOr (cellAt cells 0) "Sem identificacao"
    descricao := jsTrimOr (cellAt cells 12) ""
    valor := parseCurrency (cellAt cells 14)
    status := if dataBaixa.isSome then "Pago" else "A Vencer"
    unidade := trimOrNone (cellAt cells 21)
    obs := buildObservacao (cellAt cells 11) (cellAt cells 13)
    datapag := dataBaixa
    aluno := trimOrNone (cellAt cells 3)
    parcel := trimOrNone (cellAt cells 13)
    desc_pontual := if descPontual ≠ 0 then some descPontual else none }

/-- The `for (const row of rows)` loop with its three `continue` guards. -/
def buildLoop : List Row → List Registro
  | [] => []
  | row :: rest =>
    match row with
    | none => buildLoop rest
    | some cells =>
      if cells.length < 22 then buildLoop rest
      else
        let valorOriginal := parseCurrency (cellAt cells 14)
        match parseDate (cellAt cells 4) with
        | none => buildLoop rest
        | some _ =>
          if valorOriginal = 0 then buildLoop rest
          else registroOfCells cells :: buildLoop rest

/-- `buildLancamentosEntrada` from the source: drop the header row
(`values.slice(1)`) and run the per-row loop; `values.length <= 1` short
circuits to `[]`. -/
def buildLancamentosEntrada (values : List Row) : List Registro :=
  if values.length ≤ 1 then [] else buildLoop (values.drop 1)

/-! ### `chunkArray` (source lines 139-146)

```js
const chunkArray = <T>(items: T[], size: number): T[][] => {
  if (items.length <= size) return [items];
  const chunks: T[][] = [];
  for (let i = 0; i < items.length; i += size) {
    chunks.push(items.slice(i, i + size));
  }
  return chunks;
};
```
The `for` loop advances by `size` each iteration, so it terminates exactly
when `size` is positive; the positivity hypothesis is carried explicitly
(the handler calls it with `size = 500`). -/

/-- The chunking loop: slice off `size` items at a time. -/
def chunkGo (size : ℕ) (hs : 0 < size) : List α → List (List α)
  | [] => []
  | a :: rest => (a :: rest).take size :: chunkGo size hs ((a :: rest).drop size)
termination_by l => l.length
decreasing_by simp_all [List.length_drop]

/-- `chunkArray` from the source. -/
def chunkArray (items : List α) (size : ℕ) (hs : 0 < size) : List (List α) :=
  if items.length ≤ size then [items] else chunkGo size hs items

/-! ### The request handler (`serve(...)`, source lines 157-211)

The handler's effects are embedded explicitly:
  * `DB` is the `lancamentos` table;
  * `deleteErr` is the error (if any) returned by
    `supabase.from("lancamentos").delete().eq("tipo", "Entrada")`; a failed
    statement leaves the table unchanged, a successful one removes exactly
    the rows with `tipo = "Entrada"`;
  * `insertErr n` is the error (if any) returned by the `n`-th
    `insert(lote)` call of the run (counting from 0); a failed batch insert
    is atomic (nothing of the batch is written), a successful one appends
    the batch;
  * the trace records whether the delete statement was issued and which
    insert calls were issued, so that "never attempted" is expressible.
-/

/-- The `lancamentos` table. -/
structure DB where
  rows : List Registro
deriving DecidableEq, Repr

/-- The JSON payloads produced by `jsonResponse`:
`{ success, message, total_importado? }` plus the HTTP status. -/
structure Resp where
  status : ℕ
  success : Bool
  message : String
  total_importado : Option ℕ
deriving DecidableEq, Repr

/-- Result of the upstream fetch: the `values` array, or the message of the
error thrown by `fetchSheetData`. -/
inductive FetchResult where
  | ok (values : List Row)
  | err (msg : String)

/-- What the store layer observed during one invocation. -/
structure Trace where
  deleteAttempted : Bool
  insertAttempts : List ℕ
deriving DecidableEq, Repr

/-- The `for (const lote of batches)` insert loop.  Returns the table after
the loop, the indices of the insert calls issued, and the error message of
the failing call (if one failed; the loop aborts there). -/
def insertLoop (insertErr : ℕ → Option String) :
    List (List Registro) → DB → ℕ → DB × List ℕ × Option String
  | [], db, _ => (db, [], none)
  | lote :: rest, db, n =>
    match insertErr n with
    | some m => (db, [n], some m)
    | none =>
      let r := insertLoop insertErr rest ⟨db.rows ++ lote⟩ (n + 1)
      (r.1, n :: r.2.1, r.2.2)

/-- The `try` block of the POST path (fetch → normalize → delete → batched
insert → success payload) together with the `catch` that converts any thrown
error into a 500 failure payload. -/
def runImport (fetch : FetchResult) (deleteErr : Option String)
    (insertErr : ℕ → Option String) (db : DB) : Resp × DB × Trace :=
  match fetch with
  | .err m => (⟨500, false, m, none⟩, db, ⟨false, []⟩)
  | .ok values =>
    let registros := buildLancamentosEntrada values
    match deleteErr with
    | some m =>
      (⟨500, false, "Falha ao apagar lançamentos de entrada: " ++ m, none⟩, db,
        ⟨true, []⟩)
    | none =>
      let db1 : DB := ⟨db.rows.filter (fun r => !(r.tipo = "Entrada"))⟩
      if registros.length > 0 then
        let batches := chunkArray registros 500 (by norm_num)
        let r := insertLoop insertErr batches db1 0
        match r.2.2 with
        | some m =>
          (⟨500, false, "Falha ao inserir lançamentos: " ++ m, none⟩, r.1,
            ⟨true, r.2.1⟩)
        | none =>
          (⟨200, true,
              "Importação concluída com " ++ toString registros.length ++
                " lançamentos de entrada.", some registros.length⟩, r.1,
            ⟨true, r.2.1⟩)
      else
        (⟨200, true,
            "Importação concluída com " ++ toString registros.length ++
              " lançamentos de entrada.", some registros.length⟩, db1,
          ⟨true, []⟩)

/-- The full request handler including the method dispatch (`OPTIONS`
pre-flight answers 200 with no JSON body, non-POST answers 405). -/
def serveHandler (method : String) (fetch : FetchResult)
    (deleteErr : Option String) (insertErr : ℕ → Option String) (db : DB) :
    Resp × DB × Trace :=
  if method = "OPTIONS" then (⟨200, true, "ok", none⟩, db, ⟨false, []⟩)
  else if method ≠ "POST" then
    (⟨405, false, "Method not allowed", none⟩, db, ⟨false, []⟩)
  else runImport fetch deleteErr insertErr db

/-! ### Derived characterizations of the normalizer -/

/-- The inclusion condition of the per-row loop, read off its three
`continue` guards: the row is present, has at least 22 cells, its due-date
cell parses, and its amount cell parses to a non-zero value. -/
def keepRow : Row → Bool
  | none => false
  | some cells =>
    decide (22 ≤ cells.length) && (parseDate (cellAt cells 4)).isSome &&
      decide (parseCurrency (cellAt cells 14) ≠ 0)

/-- Total version of the loop body (`none` rows are never kept, so their
value is irrelevant). -/
def rowRegistro : Row → Registro
  | none => registroOfCells []
  | some cells => registroOfCells cells

/-! ### Spec-side definitions

These definitions follow the natural-language spec's words, to be compared
with the source-derived functions above. -/

/-- Modelled from the spec: the date rule "must match `DD/MM/YYYY` exactly
(anchored at both ends)" — two digits, `/`, two digits, `/`, four digits,
nothing else. -/
def specDateShape (s : String) : Bool :=
  match s.data with
  | [d1, d2, s1, m1, m2, s2, y1, y2, y3, y4] =>
    d1.isDigit && d2.isDigit && s1 = '/' && m1.isDigit && m2.isDigit &&
      s2 = '/' && y1.isDigit && y2.isDigit && y3.isDigit && y4.isDigit
  | _ => false

/-- Modelled from the spec: the ISO `YYYY-MM-DD` shape — four digits, `-`,
two digits, `-`, two digits. -/
def isoShape (s : String) : Bool :=
  match s.data with
  | [y1, y2, y3, y4, c1, m1, m2, c2, d1, d2] =>
    y1.isDigit && y2.isDigit && y3.isDigit && y4.isDigit && c1 = '-' &&
      m1.isDigit && m2.isDigit && c2 = '-' && d1.isDigit && d2.isDigit
  | _ => false

/-- Gregorian leap year. -/
def isLeapYear (y : ℕ) : Bool := (y % 4 = 0 && y % 100 ≠ 0) || y % 400 = 0

/-- Days in a month of the Gregorian calendar. -/
def daysInMonth (y m : ℕ) : ℕ :=
  if m = 2 then (if isLeapYear y then 29 else 28)
  else if m = 4 || m = 6 || m = 9 || m = 11 then 30
  else 31

/-- Modelled from the spec: an ISO `YYYY-MM-DD` string denoting a possible
calendar date (month 1–12, day within the month). -/
def validIsoDate (s : String) : Bool :=
  match s.data with
  | [y1, y2, y3, y4, c1, m1, m2, c2, d1, d2] =>
    y1.isDigit && y2.isDigit && y3.isDigit && y4.isDigit && c1 = '-' &&
      m1.isDigit && m2.isDigit && c2 = '-' && d1.isDigit && d2.isDigit &&
      (let y := digitsToNat [y1, y2, y3, y4]
       let m := digitsToNat [m1, m2]
       let d := digitsToNat [d1, d2]
       decide (1 ≤ m) && decide (m ≤ 12) && decide (1 ≤ d) &&
         decide (d ≤ daysInMonth y m))
  | _ => false

/-- The decimal digit characters. -/
def digitChar : ℕ → Char
  | 0 => '0' | 1 => '1' | 2 => '2' | 3 => '3' | 4 => '4'
  | 5 => '5' | 6 => '6' | 7 => '7' | 8 => '8' | 9 => '9'
  | _ => '*'

/-- Big-endian decimal digit characters of a natural number (empty for 0). -/
def natToDigitChars (n : ℕ) : List Char :=
  ((Nat.digits 10 n).map digitChar).reverse

/-- The digit string of `|q| * 10 ^ q.den` (exact whenever `q.den ∣ 10 ^ q.den`),
left-padded with zeros to at least `q.den + 1` digits. -/
def renderPadded (q : ℚ) : List Char :=
  let ds := natToDigitChars (q.num.natAbs * 10 ^ q.den / q.den)
  List.replicate (q.den + 1 - ds.length) '0' ++ ds

/-- Integer-part digits of the rendering: everything except the last
`q.den` digits. -/
def renderIp (q : ℚ) : List Char :=
  (renderPadded q).take ((renderPadded q).length - q.den)

/-- Fractional-part digits of the rendering: the last `q.den` digits. -/
def renderFp (q : ℚ) : List Char :=
  (renderPadded q).drop ((renderPadded q).length - q.den)

/-- Modelled from the spec: the normalized decimal-text rendering of a
number, in the locale decimal format the spec's parsing rule consumes
(decimal comma, no thousands separators), e.g. `1234.56 ↦ "1234,56…"`.
The fractional part is written with `q.den` digits, which is always enough
for any value `parseCurrency` can produce. -/
def renderDecimal (q : ℚ) : String :=
  (if q.num < 0 then "-" else "") ++ (⟨renderIp q⟩ : String) ++ ","
    ++ (⟨renderFp q⟩ : String)

/-- A 22-cell row whose due-date cell (index 4) is `"01/01/2024"` and whose
amount cell (index 14) is `"1"`: it passes every guard of the loop. -/
def goodRowC1 : List String :=
  List.replicate 4 "" ++ "01/01/2024" :: (List.replicate 9 "" ++ "1" :: List.replicate 7 "")

/-- A 22-cell row whose due-date cell is the impossible calendar date
`"31/02/2024"` (which still matches the `DD/MM/YYYY` regex) and whose amount
cell is `"1"`. -/
def badRowC4 : List String :=
  List.replicate 4 "" ++ "31/02/2024" :: (List.replicate 9 "" ++ "1" :: List.replicate 7 "")

lemma buildLoop_eq (rows : List Row) :
    buildLoop rows = (rows.filter keepRow).map rowRegistro := by
  induction rows with
  | nil => rfl
  | cons row rest ih =>
    cases row with
    | none => simpa [buildLoop, keepRow] using ih
    | some cells =>
      by_cases hlen : cells.length < 22
      · have hk : keepRow (some cells) = false := by
          simp only [keepRow, Bool.and_eq_false_iff, decide_eq_false_iff_not]
          left; left; omega
        simp [buildLoop, hlen, hk, ih]
      · cases hd : parseDate (cellAt cells 4) with
        | none => simp [buildLoop, hlen, hd, keepRow, ih]
        | some d =>
          by_cases hv : parseCurrency (cellAt cells 14) = 0
          · simp [buildLoop, hlen, hd, hv, keepRow, ih]
          · have hk : keepRow (some cells) = true := by
              simp [keepRow, hd, hv]; omega
            simp [buildLoop, hlen, hd, hv, hk, rowRegistro, ih]

lemma buildLancamentosEntrada_eq (values : List Row) :
    buildLancamentosEntrada values = ((values.drop 1).filter keepRow).map rowRegistro := by
  unfold buildLancamentosEntrada
  by_cases h : values.length ≤ 1
  · have hd : values.drop 1 = [] := by
      apply List.eq_nil_of_length_eq_zero
      simp [List.length_drop]; omega
    simp [h, hd]
  · simp [h, buildLoop_eq]

/-- Claim C2: after the discarded header row, the normalizer emits a record
for a row if and only if the row is present with at least 22 cells, its
due-date cell parses under the date rule, and its amount cell parses to a
non-zero value; the output is exactly the in-order image of the kept rows
(one record per kept row, no error reported for dropped rows). -/
theorem claimC2_normalizer_inclusion (values : List Row) :
    buildLancamentosEntrada values = ((values.drop 1).filter keepRow).map rowRegistro
    ∧ ∀ row : Row, keepRow row = true ↔
        ∃ cells, row = some cells ∧ 22 ≤ cells.length ∧
          (parseDate (cellAt cells 4)).isSome = true ∧
          parseCurrency (cellAt cells 14) ≠ 0 := by
  refine ⟨buildLancamentosEntrada_eq values, fun row => ?_⟩
  cases row with
  | none => simp [keepRow]
  | some cells =>
    simp only [keepRow, Bool.and_eq_true, decide_eq_true_eq]
    constructor
    · rintro ⟨⟨h1, h2⟩, h3⟩
      exact ⟨cells, rfl, h1, h2, h3⟩
    · rintro ⟨cells2, hc, h1, h2, h3⟩
      cases hc
      exact ⟨⟨h1, h2⟩, h3⟩

/-! ### Chunking and insert-loop lemmas -/

lemma chunkGo_cons (size : ℕ) (hs : 0 < size) (a : α) (rest : List α) :
    chunkGo size hs (a :: rest)
      = (a :: rest).take size :: chunkGo size hs ((a :: rest).drop size) := by
  rw [chunkGo]

lemma chunkGo_ne_nil (size : ℕ) (hs : 0 < size) (l : List α) (hl : l ≠ []) :
    chunkGo size hs l = l.take size :: chunkGo size hs (l.drop size) := by
  cases l with
  | nil => exact absurd rfl hl
  | cons a rest => exact chunkGo_cons size hs a rest

lemma chunkGo_flatten (size : ℕ) (hs : 0 < size) :
    ∀ (n : ℕ) (l : List α), l.length ≤ n → (chunkGo size hs l).flatten = l := by
  intro n
  induction n with
  | zero =>
    intro l hl
    have h0 : l = [] := List.eq_nil_of_length_eq_zero (by omega)
    subst h0; rw [chunkGo]; rfl
  | succ n ih =>
    intro l hl
    cases l with
    | nil => rw [chunkGo]; rfl
    | cons a t =>
      rw [chunkGo_cons, List.flatten_cons,
        ih ((a :: t).drop size) (by simp only [List.length_drop, List.length_cons] at hl ⊢; omega),
        List.take_append_drop]

lemma chunkArray_flatten (l : List α) (size : ℕ) (hs : 0 < size) :
    (chunkArray l size hs).flatten = l := by
  unfold chunkArray
  by_cases h : l.length ≤ size
  · simp [h]
  · simpa [h] using chunkGo_flatten size hs l.length l le_rfl

lemma chunkArray_1200 (l : List α) (h : l.length = 1200) :
    chunkArray l 500 (by norm_num)
      = [l.take 500, (l.drop 500).take 500, l.drop 1000] := by
  have h1 : l ≠ [] := by intro h0; rw [h0] at h; simp at h
  have h2 : l.drop 500 ≠ [] := by
    intro h0
    have := congrArg List.length h0
    simp [List.length_drop, h] at this
  have h3 : (l.drop 500).drop 500 = l.drop 1000 := by
    rw [List.drop_drop]
  have h4 : l.drop 1000 ≠ [] := by
    intro h0
    have := congrArg List.length h0
    simp [List.length_drop, h] at this
  have h5 : (l.drop 1000).take 500 = l.drop 1000 := by
    apply List.take_of_length_le
    simp [List.length_drop, h]
  have h6 : (l.drop 1000).drop 500 = [] := by
    apply List.drop_eq_nil_of_le
    simp [List.length_drop, h]
  unfold chunkArray
  rw [if_neg (by omega)]
  rw [chunkGo_ne_nil _ _ _ h1, chunkGo_ne_nil _ _ _ h2, h3,
    chunkGo_ne_nil _ _ _ h4, h5, h6]
  rw [chunkGo]

lemma insertLoop_filter_eq (p : Registro → Bool) (insertErr : ℕ → Option String) :
    ∀ (batches : List (List Registro)) (db : DB) (n : ℕ),
      (∀ b ∈ batches, ∀ r ∈ b, p r = false) →
      ((insertLoop insertErr batches db n).1).rows.filter p = db.rows.filter p := by
  intro batches
  induction batches with
  | nil => intro db n _; rfl
  | cons b rest ih =>
    intro db n hb
    simp only [insertLoop]
    cases h : insertErr n with
    | some m => rfl
    | none =>
      have hball : ∀ r ∈ b, p r = false := hb b (by simp)
      have hb2 : ∀ b2 ∈ rest, ∀ r ∈ b2, p r = false := fun b2 hm => hb b2 (by simp [hm])
      have hbf : b.filter p = [] := by
        rw [List.filter_eq_nil_iff]
        intro a ha
        simp [hball a ha]
      simpa [List.filter_append, hbf] using ih ⟨db.rows ++ b⟩ (n + 1) hb2

/-! ### Claims C1, C5, C9, C10 -/

/-- Claim C1: with 1,200 normalized records the insert step issues exactly
the batches of sizes 500, 500, 200, in original record order; when the
second batch insert fails, the third is never attempted (only calls 0 and 1
are issued), the failure is surfaced as the 500 failure response, and the
first batch's writes are retained in the store. -/
theorem claimC1_batch_replacement (registros : List Registro)
    (h : registros.length = 1200) (db : DB) (msg : String) :
    (chunkArray registros 500 (by norm_num)).map List.length = [500, 500, 200]
    ∧ (chunkArray registros 500 (by norm_num)).flatten = registros
    ∧ insertLoop (fun n => if n = 1 then some msg else none)
        (chunkArray registros 500 (by norm_num)) db 0
        = (⟨db.rows ++ registros.take 500⟩, [0, 1], some msg)
    ∧ ∀ values, buildLancamentosEntrada values = registros →
        runImport (.ok values) none (fun n => if n = 1 then some msg else none) db
          = (⟨500, false, "Falha ao inserir lançamentos: " ++ msg, none⟩,
             ⟨db.rows.filter (fun r => !(r.tipo = "Entrada")) ++ registros.take 500⟩,
             ⟨true, [0, 1]⟩) := by
  have hchunk := chunkArray_1200 registros h
  have hloop : ∀ db2 : DB,
      insertLoop (fun n => if n = 1 then some msg else none)
        (chunkArray registros 500 (by norm_num)) db2 0
        = (⟨db2.rows ++ registros.take 500⟩, [0, 1], some msg) := by
    intro db2
    rw [hchunk]
    simp [insertLoop]
  refine ⟨?_, chunkArray_flatten registros 500 (by norm_num), hloop db, ?_⟩
  · rw [hchunk]
    simp [List.length_take, List.length_drop, h]
  · intro values hv
    have hlen : (buildLancamentosEntrada values).length = 1200 := by rw [hv, h]
    simp only [runImport, hv]
    rw [if_pos (by omega)]
    rw [hloop ⟨db.rows.filter (fun r => !(r.tipo = "Entrada"))⟩]

/-- Claim C9: when the category-scoped delete fails, the invocation surfaces
the failure as its 500 response, issues no insert call, and leaves the store
untouched. -/
theorem claimC9_delete_failure (values : List Row) (m : String)
    (insertErr : ℕ → Option String) (db : DB) :
    runImport (.ok values) (some m) insertErr db
      = (⟨500, false, "Falha ao apagar lançamentos de entrada: " ++ m, none⟩,
         db, ⟨true, []⟩) := rfl

/-- Claim C5: an invocation whose normalized record sequence is empty still
performs the category-scoped delete, issues no insert call, and returns the
200 success payload (shape `success` / `message` / `total_importado`) with
`total_importado = 0`. -/
theorem claimC5_empty_import (values : List Row) (insertErr : ℕ → Option String)
    (db : DB) (h : buildLancamentosEntrada values = []) :
    runImport (.ok values) none insertErr db
      = (⟨200, true, "Importação concluída com 0 lançamentos de entrada.", some 0⟩,
         ⟨db.rows.filter (fun r => !(r.tipo = "Entrada"))⟩, ⟨true, []⟩) := by
  simp only [runImport, h]
  norm_num
  rfl

theorem claimC5_witness :
    buildLancamentosEntrada ([] : List Row) = []
    ∧ runImport (.ok []) none (fun _ => none) ⟨[]⟩
        = (⟨200, true, "Importação concluída com 0 lançamentos de entrada.", some 0⟩,
           ⟨[]⟩, ⟨true, []⟩) :=
  ⟨rfl, by simpa using claimC5_empty_import [] (fun _ => none) ⟨[]⟩ rfl⟩

/-! ### Concrete-row helper lemmas -/

lemma parseCurrency_one : parseCurrency (some "1") = 1 := by
  have h : parseFloatMK (normalizeCurrency "1".data) = some (1, 0) := by decide
  simp [parseCurrency, h, ratOfMK]

lemma goodRowC1_keep : keepRow (some goodRowC1) = true := by
  have hc : cellAt goodRowC1 14 = some "1" := by decide
  have hd : parseDate (cellAt goodRowC1 4) = some "2024-01-01" := by decide
  have hlen : goodRowC1.length = 22 := by decide
  simp [keepRow, hd, hc, hlen, parseCurrency_one]

lemma buildLancamentos_replicate (n : ℕ) :
    buildLancamentosEntrada (none :: List.replicate n (some goodRowC1))
      = List.replicate n (registroOfCells goodRowC1) := by
  rw [buildLancamentosEntrada_eq]
  simp [List.filter_replicate, goodRowC1_keep, rowRegistro, List.map_replicate]

lemma buildLancamentos_single :
    buildLancamentosEntrada [none, some goodRowC1] = [registroOfCells goodRowC1] := by
  rw [buildLancamentosEntrada_eq]
  simp [goodRowC1_keep, rowRegistro]

theorem claimC1_witness :
    (List.replicate 1200 (registroOfCells goodRowC1)).length = 1200
    ∧ buildLancamentosEntrada (none :: List.replicate 1200 (some goodRowC1))
        = List.replicate 1200 (registroOfCells goodRowC1)
    ∧ runImport (.ok (none :: List.replicate 1200 (some goodRowC1))) none
        (fun n => if n = 1 then some "boom" else none) ⟨[]⟩
        = (⟨500, false, "Falha ao inserir lançamentos: " ++ "boom", none⟩,
           ⟨List.filter (fun r => !(r.tipo = "Entrada")) []
              ++ (List.replicate 1200 (registroOfCells goodRowC1)).take 500⟩,
           ⟨true, [0, 1]⟩) :=
  ⟨List.length_replicate 1200 _, buildLancamentos_replicate 1200,
    (claimC1_batch_replacement (List.replicate 1200 (registroOfCells goodRowC1))
      (List.length_replicate 1200 _) ⟨[]⟩ "boom").2.2.2 _
      (buildLancamentos_replicate 1200)⟩

/-! ### Claim C10: frame property -/

lemma mem_build_tipo (values : List Row) (r : Registro)
    (h : r ∈ buildLancamentosEntrada values) : r.tipo = "Entrada" := by
  rw [buildLancamentosEntrada_eq] at h
  obtain ⟨row, _, rfl⟩ := List.mem_map.mp h
  cases row <;> rfl

lemma insertLoop_entrada_filter (insertErr : ℕ → Option String) (values : List Row)
    (db2 : DB) (hp : 0 < (500 : ℕ)) :
    ((insertLoop insertErr (chunkArray (buildLancamentosEntrada values) 500 hp)
        db2 0).1).rows.filter (fun r => !(r.tipo = "Entrada"))
      = db2.rows.filter (fun r => !(r.tipo = "Entrada")) := by
  apply insertLoop_filter_eq
  intro b hb r hr
  have hrm : r ∈ buildLancamentosEntrada values := by
    have hfl := List.mem_flatten.mpr ⟨b, hb, hr⟩
    rwa [chunkArray_flatten] at hfl
  simp [mem_build_tipo values r hrm]

lemma runImport_entrada_filter (fetch : FetchResult) (deleteErr : Option String)
    (insertErr : ℕ → Option String) (db : DB) :
    ((runImport fetch deleteErr insertErr db).2.1).rows.filter
        (fun r => !(r.tipo = "Entrada"))
      = db.rows.filter (fun r => !(r.tipo = "Entrada")) := by
  cases fetch with
  | err m => rfl
  | ok values =>
    cases deleteErr with
    | some m => rfl
    | none =>
      simp only [runImport]
      by_cases hr : (buildLancamentosEntrada values).length > 0
      · rw [if_pos hr]
        split <;>
          (dsimp only
           rw [insertLoop_entrada_filter]
           simp [List.filter_filter])
      · rw [if_neg hr]
        dsimp only
        simp [List.filter_filter]

/-- Claim C10: a pipeline run never mutates records of other categories —
the delete filter removes only `tipo = "Entrada"` rows, every normalized
record carries `tipo = "Entrada"`, and hence the subsequence of stored rows
whose `tipo` differs from `"Entrada"` is exactly preserved by every
invocation, whatever the method, fetch outcome and store errors. -/
theorem claimC10_frame (method : String) (fetch : FetchResult)
    (deleteErr : Option String) (insertErr : ℕ → Option String) (db : DB) :
    ((serveHandler method fetch deleteErr insertErr db).2.1).rows.filter
        (fun r => !(r.tipo = "Entrada"))
      = db.rows.filter (fun r => !(r.tipo = "Entrada"))
    ∧ ∀ values r, r ∈ buildLancamentosEntrada values → r.tipo = "Entrada" := by
  refine ⟨?_, mem_build_tipo⟩
  unfold serveHandler
  by_cases hm1 : method = "OPTIONS"
  · simp [hm1]
  · by_cases hm2 : method = "POST"
    · rw [if_neg hm1, if_neg (by simp [hm2])]
      exact runImport_entrada_filter fetch deleteErr insertErr db
    · rw [if_neg hm1, if_pos hm2]

theorem claimC10_witness :
    ((serveHandler "POST" (.ok [none, some goodRowC1]) none (fun _ => none)
        ⟨[]⟩).2.1).rows.filter (fun r => !(r.tipo = "Entrada")) = []
    ∧ (registroOfCells goodRowC1).tipo = "Entrada" := by
  constructor
  · simpa using (claimC10_frame "POST" (.ok [none, some goodRowC1]) none
      (fun _ => none) ⟨[]⟩).1
  · exact (claimC10_frame "POST" (.ok [none, some goodRowC1]) none
      (fun _ => none) ⟨[]⟩).2 [none, some goodRowC1] _
      (by rw [buildLancamentos_single]; simp)

/-! ### Claim C6: status derivation -/

/-- Claim C6: every normalized record comes from a source row, its
`datapag` is exactly the date-rule parse of that row's payment-date cell
(index 5), its `status` is `"Pago"` (spec: `Paid`) precisely when that parse
succeeds, and otherwise the status is `"A Vencer"` (spec: `Due`) with
`datapag = none`. -/
theorem claimC6_status_paid (values : List Row) (r : Registro)
    (h : r ∈ buildLancamentosEntrada values) :
    ∃ cells, some cells ∈ values.drop 1 ∧ r = registroOfCells cells
      ∧ r.datapag = parseDate (cellAt cells 5)
      ∧ (r.status = "Pago" ↔ (parseDate (cellAt cells 5)).isSome = true)
      ∧ ((parseDate (cellAt cells 5)).isSome = false →
          r.status = "A Vencer" ∧ r.datapag = none) := by
  rw [buildLancamentosEntrada_eq] at h
  obtain ⟨row, hrow, rfl⟩ := List.mem_map.mp h
  have hmem := (List.mem_filter.mp hrow).1
  have hkeep := (List.mem_filter.mp hrow).2
  cases row with
  | none => simp [keepRow] at hkeep
  | some cells =>
    refine ⟨cells, hmem, rfl, rfl, ?_, ?_⟩
    · cases hpd : (parseDate (cellAt cells 5)).isSome <;>
        simp [rowRegistro, registroOfCells, hpd]
    · intro hpd
      cases hpm : parseDate (cellAt cells 5) with
      | some d => rw [hpm] at hpd; simp at hpd
      | none => constructor <;> simp [rowRegistro, registroOfCells, hpm]

theorem claimC6_witness :
    registroOfCells goodRowC1 ∈ buildLancamentosEntrada [none, some goodRowC1]
    ∧ ∃ cells, some cells ∈ ([none, some goodRowC1] : List Row).drop 1
        ∧ registroOfCells goodRowC1 = registroOfCells cells
        ∧ (registroOfCells goodRowC1).datapag = parseDate (cellAt cells 5)
        ∧ ((registroOfCells goodRowC1).status = "Pago" ↔
            (parseDate (cellAt cells 5)).isSome = true)
        ∧ ((parseDate (cellAt cells 5)).isSome = false →
            (registroOfCells goodRowC1).status = "A Vencer"
            ∧ (registroOfCells goodRowC1).datapag = none) := by
  have hmem : registroOfCells goodRowC1 ∈ buildLancamentosEntrada [none, some goodRowC1] := by
    rw [buildLancamentos_single]; simp
  exact ⟨hmem, claimC6_status_paid _ _ hmem⟩

/-! ### Claim C8: note construction -/

/-- Claim C8: the note is the `" / "` join when both cells are non-empty
after trimming, the single non-empty one when exactly one is, `none` when
neither is; the note of an emitted record is never the empty string, and
each record's `obs` field is built by this rule from cells 11 and 13. -/
theorem claimC8_note (categoria parcela : Option String) :
    (truthy (categoria.map jsTrim) = true → truthy (parcela.map jsTrim) = true →
        buildObservacao categoria parcela
          = some ((categoria.map jsTrim).getD "" ++ " / " ++ (parcela.map jsTrim).getD ""))
    ∧ (truthy (categoria.map jsTrim) = true → truthy (parcela.map jsTrim) = false →
        buildObservacao categoria parcela = categoria.map jsTrim)
    ∧ (truthy (categoria.map jsTrim) = false → truthy (parcela.map jsTrim) = true →
        buildObservacao categoria parcela = parcela.map jsTrim)
    ∧ (truthy (categoria.map jsTrim) = false → truthy (parcela.map jsTrim) = false →
        buildObservacao categoria parcela = none)
    ∧ buildObservacao categoria parcela ≠ some ""
    ∧ ∀ cells, (registroOfCells cells).obs
        = buildObservacao (cellAt cells 11) (cellAt cells 13) := by
  refine ⟨fun h1 h2 => by simp [buildObservacao, h1, h2],
    fun h1 h2 => by simp [buildObservacao, h1, h2],
    fun h1 h2 => by simp [buildObservacao, h1, h2],
    fun h1 h2 => by simp [buildObservacao, h1, h2], ?_, fun cells => rfl⟩
  unfold buildObservacao
  cases hc : truthy (categoria.map jsTrim) <;> cases hp : truthy (parcela.map jsTrim)
  · simp [hc, hp]
  · simp only [hc, hp, Bool.false_and, Bool.false_eq_true, if_false]
    cases hpm : parcela.map jsTrim with
    | none => rw [hpm] at hp; simp [truthy] at hp
    | some s =>
      rw [hpm] at hp
      simp only [truthy, ne_eq, decide_eq_true_eq] at hp
      simp [hp]
  · simp only [hc, hp, Bool.and_false, Bool.false_eq_true, if_false, if_true]
    cases hcm : categoria.map jsTrim with
    | none => rw [hcm] at hc; simp [truthy] at hc
    | some s =>
      rw [hcm] at hc
      simp only [truthy, ne_eq, decide_eq_true_eq] at hc
      simp [hc]
  · simp only [hc, hp, Bool.and_self, if_true]
    intro heq
    have hlen := congrArg String.length (Option.some.inj heq)
    rw [String.length_append, String.length_append] at hlen
    have h3 : (" / " : String).length = 3 := rfl
    rw [h3] at hlen
    have h0 : ("" : String).length = 0 := rfl
    rw [h0] at hlen
    omega

theorem claimC8_witness :
    buildObservacao (some "Mensalidade") (some "2/12") = some "Mensalidade / 2/12"
    ∧ buildObservacao none none = none
    ∧ buildObservacao (some "Mensalidade") (some "2/12") ≠ some "" := by
  refine ⟨?_, ?_, ?_⟩
  · have h := (claimC8_note (some "Mensalidade") (some "2/12")).1 (by decide) (by decide)
    rw [h]; rfl
  · exact (claimC8_note none none).2.2.2.1 rfl rfl
  · exact (claimC8_note (some "Mensalidade") (some "2/12")).2.2.2.2.1

/-! ### Date-rule lemmas (claims C7 and C4) -/

lemma dateMatch_some_shape {cs : List Char} {d m y : String}
    (h : dateMatch cs = some (d, m, y)) :
    ∃ d1 d2 m1 m2 y1 y2 y3 y4 : Char,
      cs = [d1, d2, '/', m1, m2, '/', y1, y2, y3, y4]
      ∧ d1.isDigit = true ∧ d2.isDigit = true ∧ m1.isDigit = true
      ∧ m2.isDigit = true ∧ y1.isDigit = true ∧ y2.isDigit = true
      ∧ y3.isDigit = true ∧ y4.isDigit = true
      ∧ d = ⟨[d1, d2]⟩ ∧ m = ⟨[m1, m2]⟩ ∧ y = ⟨[y1, y2, y3, y4]⟩ := by
  unfold dateMatch at h
  split at h
  next d1 d2 s1 m1 m2 s2 y1 y2 y3 y4 =>
    split at h
    next hguard =>
      simp only [Bool.and_eq_true, decide_eq_true_eq] at hguard
      obtain ⟨⟨⟨⟨⟨⟨⟨⟨⟨h1, h2⟩, h3⟩, h4⟩, h5⟩, h6⟩, h7⟩, h8⟩, h9⟩, h10⟩ := hguard
      subst h3; subst h6
      simp only [Option.some.injEq, Prod.mk.injEq] at h
      obtain ⟨hd, hm, hy⟩ := h
      exact ⟨d1, d2, m1, m2, y1, y2, y3, y4, rfl, h1, h2, h4, h5, h7, h8, h9, h10,
        hd.symm, hm.symm, hy.symm⟩
    next _ => cases h
  next => cases h

lemma dateMatch_none_of_shape_false {cs : List Char}
    (h : specDateShape ⟨cs⟩ = false) : dateMatch cs = none := by
  cases hd : dateMatch cs with
  | none => rfl
  | some t =>
    obtain ⟨d, m, y⟩ := t
    obtain ⟨d1, d2, m1, m2, y1, y2, y3, y4, hcs, h1, h2, h4, h5, h7, h8, h9, h10,
      _, _, _⟩ := dateMatch_some_shape hd
    subst hcs
    simp [specDateShape, h1, h2, h4, h5, h7, h8, h9, h10] at h

lemma dateMatch_cons_eq (d1 d2 s1 m1 m2 s2 y1 y2 y3 y4 : Char) :
    dateMatch [d1, d2, s1, m1, m2, s2, y1, y2, y3, y4]
      = if (d1.isDigit && d2.isDigit && s1 = '/' && m1.isDigit && m2.isDigit &&
            s2 = '/' && y1.isDigit && y2.isDigit && y3.isDigit && y4.isDigit) then
          some (⟨[d1, d2]⟩, ⟨[m1, m2]⟩, ⟨[y1, y2, y3, y4]⟩)
        else none := rfl

lemma dateMatch_isSome_of_shape {s : String} (h : specDateShape s = true) :
    (dateMatch s.data).isSome = true := by
  unfold specDateShape at h
  split at h
  next d1 d2 s1 m1 m2 s2 y1 y2 y3 y4 heq =>
    rw [heq, dateMatch_cons_eq, if_pos h]
    rfl
  next => cases h

lemma specDateShape_eq_isSome (s : String) :
    specDateShape s = (dateMatch s.data).isSome := by
  cases hs : specDateShape s with
  | true => simp [dateMatch_isSome_of_shape hs]
  | false =>
    have hn : dateMatch s.data = none :=
      @dateMatch_none_of_shape_false s.data hs
    simp [hn]

lemma specDateShape_empty : specDateShape "" = false := by decide

/-- Claim C7 (amended to what the code does): `parseDate` accepts a cell iff
the cell is present and its *trimmed* text matches `DD/MM/YYYY` anchored at
both ends, and an accepted cell is rearranged into `YYYY-MM-DD` (year, month
and day copied verbatim from the trimmed text). -/
theorem claimC7_date_rule (v : Option String) :
    ((parseDate v).isSome = true ↔
      ∃ s, v = some s ∧ specDateShape (jsTrim s) = true)
    ∧ ∀ s iso, v = some s → parseDate v = some iso →
        iso = ⟨(jsTrim s).data.drop 6⟩ ++ "-" ++ ⟨((jsTrim s).data.drop 3).take 2⟩
          ++ "-" ++ ⟨(jsTrim s).data.take 2⟩ := by
  constructor
  · cases v with
    | none => simp [parseDate]
    | some s =>
      constructor
      · intro hsome
        refine ⟨s, rfl, ?_⟩
        rw [specDateShape_eq_isSome]
        by_cases ht : jsTrim s = ""
        · simp [parseDate, ht] at hsome
        · simp only [parseDate, if_neg ht] at hsome
          cases hdm : dateMatch (jsTrim s).data with
          | none => simp [hdm] at hsome
          | some t => simp [hdm]
      · rintro ⟨s2, heq, hshape⟩
        obtain rfl := Option.some.inj heq
        rw [specDateShape_eq_isSome] at hshape
        obtain ⟨t, hdm⟩ := Option.isSome_iff_exists.mp hshape
        obtain ⟨d, m, y⟩ := t
        have hne : jsTrim s ≠ "" := by
          intro h0
          rw [h0] at hdm
          have h00 : dateMatch ("" : String).data = none := rfl
          rw [h00] at hdm
          cases hdm
        simp [parseDate, hne, hdm]
  · rintro s iso rfl hiso
    simp only [parseDate] at hiso
    by_cases ht : jsTrim s = ""
    · rw [if_pos ht] at hiso; cases hiso
    · rw [if_neg ht] at hiso
      cases hdm : dateMatch (jsTrim s).data with
      | none => rw [hdm] at hiso; cases hiso
      | some t =>
        obtain ⟨d, m, y⟩ := t
        rw [hdm] at hiso
        obtain ⟨d1, d2, m1, m2, y1, y2, y3, y4, hcs, _, _, _, _, _, _, _, _,
          hd, hm, hy⟩ := dateMatch_some_shape hdm
        cases hiso
        subst hd hm hy
        rw [hcs]
        rfl

/-- Claim C7 counterexample: the original claim ("accepts iff the cell
matches `DD/MM/YYYY` exactly, anchored at both ends") is false on the code:
a cell with leading whitespace does not match the anchored pattern, yet
`parseDate` accepts it, because the source trims the cell first. -/
theorem claimC7_counterexample :
    parseDate (some " 01/02/2024") = some "2024-02-01"
    ∧ specDateShape " 01/02/2024" = false := by
  constructor
  · rfl
  · decide

theorem claimC7_witness :
    (parseDate (some "05/09/2024")).isSome = true
    ∧ (∃ s, (some "05/09/2024" : Option String) = some s
        ∧ specDateShape (jsTrim s) = true)
    ∧ parseDate (some "05/09/2024") = some "2024-09-05"
    ∧ "2024-09-05"
        = (⟨(jsTrim "05/09/2024").data.drop 6⟩ : String) ++ "-"
          ++ ⟨((jsTrim "05/09/2024").data.drop 3).take 2⟩ ++ "-"
          ++ ⟨(jsTrim "05/09/2024").data.take 2⟩ :=
  ⟨by decide, (claimC7_date_rule (some "05/09/2024")).1.mp (by decide), by decide,
    (claimC7_date_rule (some "05/09/2024")).2 "05/09/2024" "2024-09-05" rfl (by decide)⟩

/-! ### Claim C4: due-date validity -/

lemma parseDate_isoShape {v : Option String} {iso : String}
    (h : parseDate v = some iso) : isoShape iso = true ∧ iso ≠ "" := by
  cases v with
  | none => cases h
  | some s =>
    simp only [parseDate] at h
    by_cases ht : jsTrim s = ""
    · rw [if_pos ht] at h; cases h
    · rw [if_neg ht] at h
      cases hdm : dateMatch (jsTrim s).data with
      | none => rw [hdm] at h; cases h
      | some t =>
        obtain ⟨d, m, y⟩ := t
        rw [hdm] at h
        obtain ⟨d1, d2, m1, m2, y1, y2, y3, y4, _, h1, h2, h4, h5, h7, h8, h9, h10,
          hd, hm, hy⟩ := dateMatch_some_shape hdm
        cases h
        subst hd hm hy
        constructor
        · show isoShape (⟨[y1, y2, y3, y4]⟩ ++ "-" ++ ⟨[m1, m2]⟩ ++ "-" ++ ⟨[d1, d2]⟩) = true
          simp [isoShape, String.data_append, h1, h2, h4, h5, h7, h8, h9, h10]
        · intro h0
          have := congrArg (fun t : String => t.data.length) h0
          simp [String.data_append] at this

/-- Claim C4 (amended to what the code does): every record that survives
normalization has a non-empty `data` (due date) of the ISO `YYYY-MM-DD`
digit shape, rearranged from a cell whose trimmed text matched the
`DD/MM/YYYY` regex; calendar validity is *not* checked, so impossible dates
such as February 31 can be emitted. -/
theorem claimC4_due_date_shape (values : List Row) (r : Registro)
    (h : r ∈ buildLancamentosEntrada values) :
    r.data ≠ "" ∧ isoShape r.data = true := by
  rw [buildLancamentosEntrada_eq] at h
  obtain ⟨row, hrow, rfl⟩ := List.mem_map.mp h
  have hkeep := (List.mem_filter.mp hrow).2
  cases row with
  | none => simp [keepRow] at hkeep
  | some cells =>
    simp only [keepRow, Bool.and_eq_true, decide_eq_true_eq] at hkeep
    obtain ⟨⟨_, hsome⟩, _⟩ := hkeep
    obtain ⟨dv, hdv⟩ := Option.isSome_iff_exists.mp hsome
    have hshape := parseDate_isoShape hdv
    have hdata : (rowRegistro (some cells)).data = dv := by
      simp [rowRegistro, registroOfCells, hdv]
    rw [hdata]
    exact ⟨hshape.2, hshape.1⟩

theorem claimC4_witness :
    registroOfCells goodRowC1 ∈ buildLancamentosEntrada [none, some goodRowC1]
    ∧ (registroOfCells goodRowC1).data ≠ ""
    ∧ isoShape (registroOfCells goodRowC1).data = true := by
  have hmem : registroOfCells goodRowC1 ∈ buildLancamentosEntrada [none, some goodRowC1] := by
    rw [buildLancamentos_single]; simp
  exact ⟨hmem, claimC4_due_date_shape _ _ hmem⟩

lemma badRowC4_keep : keepRow (some badRowC4) = true := by
  have hc : cellAt badRowC4 14 = some "1" := by decide
  have hd : parseDate (cellAt badRowC4 4) = some "2024-02-31" := by decide
  have hlen : badRowC4.length = 22 := by decide
  simp [keepRow, hd, hc, hlen, parseCurrency_one]

/-- Claim C4 counterexample: the pipeline emits a record whose stored due
date is `"2024-02-31"` — February 31 — which is not a possible calendar
date, so "no emitted record carries an impossible date" is false on the
code (the regex checks only the digit shape). -/
theorem claimC4_counterexample :
    buildLancamentosEntrada [none, some badRowC4] = [registroOfCells badRowC4]
    ∧ (registroOfCells badRowC4).data = "2024-02-31"
    ∧ validIsoDate "2024-02-31" = false := by
  refine ⟨?_, by decide, by decide⟩
  rw [buildLancamentosEntrada_eq]
  simp [badRowC4_keep, rowRegistro]

/-! ### Claim C3: digit-string arithmetic -/

lemma digitsToNat_go (cs : List Char) (m : ℕ) :
    cs.foldl (fun n c => 10 * n + charToDigit c) m
      = m * 10 ^ cs.length + digitsToNat cs := by
  induction cs generalizing m with
  | nil => simp [digitsToNat]
  | cons c t ih =>
    simp only [List.foldl_cons, digitsToNat, List.length_cons]
    rw [ih, ih]
    ring

lemma digitsToNat_append (a b : List Char) :
    digitsToNat (a ++ b) = digitsToNat a * 10 ^ b.length + digitsToNat b := by
  unfold digitsToNat
  rw [List.foldl_append]
  exact digitsToNat_go b _

lemma digitsToNat_replicate_zero (n : ℕ) :
    digitsToNat (List.replicate n '0') = 0 := by
  induction n with
  | zero => rfl
  | succ k ih =>
    rw [List.replicate_succ]
    unfold digitsToNat at ih ⊢
    simp only [List.foldl_cons]
    have h0 : 10 * 0 + charToDigit '0' = 0 := by decide
    rw [h0]
    exact ih

lemma digitsToNat_pad (n : ℕ) (cs : List Char) :
    digitsToNat (List.replicate n '0' ++ cs) = digitsToNat cs := by
  rw [digitsToNat_append, digitsToNat_replicate_zero]
  ring

lemma charToDigit_digitChar {d : ℕ} (h : d < 10) : charToDigit (digitChar d) = d := by
  interval_cases d <;> decide

lemma isDigit_digitChar {d : ℕ} (h : d < 10) : (digitChar d).isDigit = true := by
  interval_cases d <;> decide

lemma digitsToNat_rev_map (L : List ℕ) (h : ∀ d ∈ L, d < 10) :
    digitsToNat ((L.map digitChar).reverse) = Nat.ofDigits 10 L := by
  induction L with
  | nil => rfl
  | cons d t ih =>
    simp only [List.map_cons, List.reverse_cons]
    rw [digitsToNat_append, ih (fun x hx => h x (List.mem_cons_of_mem d hx))]
    have hd : d < 10 := h d (List.mem_cons_self d t)
    have h1 : digitsToNat [digitChar d] = d := by
      unfold digitsToNat
      simp [charToDigit_digitChar hd]
    rw [h1, Nat.ofDigits_cons]
    simp only [List.length_cons, List.length_nil]
    ring

lemma digitsToNat_natToDigitChars (n : ℕ) : digitsToNat (natToDigitChars n) = n := by
  unfold natToDigitChars
  rw [digitsToNat_rev_map _ (fun d hd => Nat.digits_lt_base (by norm_num) hd)]
  exact Nat.ofDigits_digits 10 n

lemma natToDigitChars_digits (n : ℕ) : ∀ c ∈ natToDigitChars n, c.isDigit = true := by
  intro c hc
  unfold natToDigitChars at hc
  rw [List.mem_reverse, List.mem_map] at hc
  obtain ⟨d, hd, rfl⟩ := hc
  exact isDigit_digitChar (Nat.digits_lt_base (by norm_num) hd)

/-! ### Claim C3: evaluating the modelled `parseFloat` -/

lemma takeWhile_all {p : Char → Bool} (l : List Char) (h : ∀ c ∈ l, p c = true) :
    l.takeWhile p = l := by
  induction l with
  | nil => rfl
  | cons c t ih =>
    rw [List.takeWhile_cons, if_pos (h c (List.mem_cons_self c t)),
      ih (fun x hx => h x (List.mem_cons_of_mem c hx))]

lemma takeWhile_digits_dot (ip fp : List Char) (h : ∀ c ∈ ip, c.isDigit = true) :
    (ip ++ '.' :: fp).takeWhile Char.isDigit = ip
    ∧ (ip ++ '.' :: fp).dropWhile Char.isDigit = '.' :: fp := by
  induction ip with
  | nil =>
    refine ⟨?_, ?_⟩
    · rw [List.nil_append, List.takeWhile_cons, if_neg (by decide)]
    · rw [List.nil_append, List.dropWhile_cons, if_neg (by decide)]
  | cons c t ih =>
    have hc := h c (List.mem_cons_self c t)
    obtain ⟨ih1, ih2⟩ := ih (fun x hx => h x (List.mem_cons_of_mem c hx))
    refine ⟨?_, ?_⟩
    · rw [List.cons_append, List.takeWhile_cons, if_pos hc, ih1]
    · rw [List.cons_append, List.dropWhile_cons, if_pos hc, ih2]

lemma isDigit_ne_dash {c : Char} (h : c.isDigit = true) : ¬c = '-' := by
  intro e; subst e; exact absurd h (by decide)

lemma isDigit_ne_dot {c : Char} (h : c.isDigit = true) : ¬c = '.' := by
  intro e; subst e; exact absurd h (by decide)

lemma isDigit_ne_comma {c : Char} (h : c.isDigit = true) : ¬c = ',' := by
  intro e; subst e; exact absurd h (by decide)

lemma parseFloatMK_eval (P : Prop) [Decidable P] (ip fp : List Char)
    (hip : ∀ c ∈ ip, c.isDigit = true) (hfp : ∀ c ∈ fp, c.isDigit = true)
    (hne : ip ≠ []) :
    parseFloatMK ((if P then ['-'] else []) ++ ip ++ '.' :: fp)
      = some
          (if P then -((digitsToNat ip * 10 ^ fp.length + digitsToNat fp : ℕ) : ℤ)
           else ((digitsToNat ip * 10 ^ fp.length + digitsToNat fp : ℕ) : ℤ),
           fp.length) := by
  obtain ⟨c, t, rfl⟩ := List.exists_cons_of_ne_nil hne
  have hc : c.isDigit = true := hip c (List.mem_cons_self c t)
  have hcd : ¬(c = '-') := isDigit_ne_dash hc
  obtain ⟨htw, hdw⟩ := takeWhile_digits_dot (c :: t) fp hip
  obtain ⟨htw2, hdw2⟩ :=
    takeWhile_digits_dot t fp (fun x hx => hip x (List.mem_cons_of_mem c hx))
  have hfw : fp.takeWhile Char.isDigit = fp := takeWhile_all fp hfp
  by_cases hP : P
  · rw [if_pos hP, if_pos hP]
    have hcs : ((['-'] : List Char) ++ (c :: t)) ++ '.' :: fp
        = '-' :: ((c :: t) ++ '.' :: fp) := rfl
    rw [hcs]
    simp [parseFloatMK, hc, hcd, htw, hdw, htw2, hdw2, hfw]
  · rw [if_neg hP, if_neg hP, List.nil_append]
    simp [parseFloatMK, hc, hcd, htw, hdw, htw2, hdw2, hfw]

/-! ### Claim C3: the rendering and its re-parse -/

lemma renderPadded_digits (q : ℚ) : ∀ c ∈ renderPadded q, c.isDigit = true := by
  intro c hc
  unfold renderPadded at hc
  rw [List.mem_append] at hc
  rcases hc with hc | hc
  · rw [List.mem_replicate] at hc
    rw [hc.2]
    decide
  · exact natToDigitChars_digits _ c hc

lemma renderPadded_length (q : ℚ) : q.den + 1 ≤ (renderPadded q).length := by
  unfold renderPadded
  rw [List.length_append, List.length_replicate]
  omega

lemma renderIp_digits (q : ℚ) : ∀ c ∈ renderIp q, c.isDigit = true :=
  fun c hc => renderPadded_digits q c (List.take_subset _ _ hc)

lemma renderFp_digits (q : ℚ) : ∀ c ∈ renderFp q, c.isDigit = true :=
  fun c hc => renderPadded_digits q c (List.drop_subset _ _ hc)

lemma renderIp_ne_nil (q : ℚ) : renderIp q ≠ [] := by
  have h := renderPadded_length q
  unfold renderIp
  intro h0
  rw [List.take_eq_nil_iff] at h0
  rcases h0 with h0 | h0
  · omega
  · rw [h0] at h
    simp at h

lemma renderFp_length (q : ℚ) : (renderFp q).length = q.den := by
  have h := renderPadded_length q
  unfold renderFp
  rw [List.length_drop]
  omega

lemma digitsToNat_render (q : ℚ) :
    digitsToNat (renderIp q) * 10 ^ (renderFp q).length + digitsToNat (renderFp q)
      = q.num.natAbs * 10 ^ q.den / q.den := by
  rw [← digitsToNat_append]
  unfold renderIp renderFp
  rw [List.take_append_drop]
  unfold renderPadded
  rw [digitsToNat_pad, digitsToNat_natToDigitChars]

lemma renderDecimal_data (q : ℚ) :
    (renderDecimal q).data
      = (if q.num < 0 then ['-'] else []) ++ (renderIp q ++ ',' :: renderFp q) := by
  unfold renderDecimal
  by_cases h : q.num < 0 <;>
    simp [h, String.data_append, List.append_assoc]

lemma replaceFirst_cons (c : Char) (l : List Char) (a b : Char) :
    replaceFirst (c :: l) a b = if c = a then b :: l else c :: replaceFirst l a b :=
  rfl

lemma replaceFirst_no_occ (a b : List Char) (x y : Char) (h : ∀ c ∈ a, ¬c = x) :
    replaceFirst (a ++ x :: b) x y = a ++ y :: b := by
  induction a with
  | nil => simp [replaceFirst]
  | cons c t ih =>
    rw [List.cons_append, replaceFirst_cons, if_neg (h c (List.mem_cons_self c t)),
      ih (fun z hz => h z (List.mem_cons_of_mem c hz)), List.cons_append]

lemma normalizeCurrency_render (q : ℚ) :
    normalizeCurrency (renderDecimal q).data
      = (if q.num < 0 then ['-'] else []) ++ (renderIp q ++ '.' :: renderFp q) := by
  rw [renderDecimal_data]
  unfold normalizeCurrency
  have hdot : ∀ c ∈ (if q.num < 0 then ['-'] else [])
      ++ (renderIp q ++ ',' :: renderFp q), (c ≠ '.' : Bool) = true := by
    intro c hc
    rw [decide_eq_true_eq]
    rw [List.mem_append] at hc
    rcases hc with hc | hc
    · by_cases h : q.num < 0
      · rw [if_pos h] at hc
        simp only [List.mem_singleton] at hc
        rw [hc]; decide
      · rw [if_neg h] at hc
        simp at hc
    · rw [List.mem_append] at hc
      rcases hc with hc | hc
      · exact isDigit_ne_dot (renderIp_digits q c hc)
      · rw [List.mem_cons] at hc
        rcases hc with hc | hc
        · rw [hc]; decide
        · exact isDigit_ne_dot (renderFp_digits q c hc)
  rw [List.filter_eq_self.mpr hdot]
  rw [← List.append_assoc]
  rw [replaceFirst_no_occ _ _ _ _ ?hcomma]
  case hcomma =>
    intro c hc
    rw [List.mem_append] at hc
    rcases hc with hc | hc
    · by_cases h : q.num < 0
      · rw [if_pos h] at hc
        simp only [List.mem_singleton] at hc
        rw [hc]; decide
      · rw [if_neg h] at hc
        simp at hc
    · exact isDigit_ne_comma (renderIp_digits q c hc)
  have hkeep : ∀ c ∈ ((if q.num < 0 then ['-'] else []) ++ renderIp q)
      ++ '.' :: renderFp q, (c.isDigit || c = '.' || c = '-') = true := by
    intro c hc
    rw [List.mem_append] at hc
    rcases hc with hc | hc
    · rw [List.mem_append] at hc
      rcases hc with hc | hc
      · by_cases h : q.num < 0
        · rw [if_pos h] at hc
          simp only [List.mem_singleton] at hc
          rw [hc]; decide
        · rw [if_neg h] at hc
          simp at hc
      · simp [renderIp_digits q c hc]
    · rw [List.mem_cons] at hc
      rcases hc with hc | hc
      · rw [hc]; decide
      · simp [renderFp_digits q c hc]
  rw [List.filter_eq_self.mpr hkeep]
  rw [List.append_assoc]

lemma parseCurrency_renderDecimal (q : ℚ) (hd : q.den ∣ 10 ^ q.den) :
    parseCurrency (some (renderDecimal q)) = q := by
  have hne : renderDecimal q ≠ "" := by
    intro h0
    have h1 := congrArg String.data h0
    rw [renderDecimal_data] at h1
    by_cases h : q.num < 0 <;> simp [h] at h1
  have hstep : parseCurrency (some (renderDecimal q))
      = ratOfMK (parseFloatMK (normalizeCurrency (renderDecimal q).data)) := by
    simp [parseCurrency, hne]
  rw [hstep, normalizeCurrency_render, ← List.append_assoc,
    parseFloatMK_eval (q.num < 0) (renderIp q) (renderFp q) (renderIp_digits q)
      (renderFp_digits q) (renderIp_ne_nil q)]
  rw [digitsToNat_render, renderFp_length]
  have hNden : q.num.natAbs * 10 ^ q.den / q.den * q.den = q.num.natAbs * 10 ^ q.den :=
    Nat.div_mul_cancel (hd.mul_left _)
  have hden0 : ((q.den : ℚ)) ≠ 0 := Nat.cast_ne_zero.mpr q.den_nz
  have hpow0 : ((10 : ℚ) ^ q.den) ≠ 0 := pow_ne_zero _ (by norm_num)
  have hqd : (q.num : ℚ) = q * (q.den : ℚ) :=
    (div_eq_iff hden0).mp (Rat.num_div_den q)
  have hNq : ((q.num.natAbs * 10 ^ q.den / q.den : ℕ) : ℚ) * (q.den : ℚ)
      = (q.num.natAbs : ℚ) * 10 ^ q.den := by
    exact_mod_cast congrArg (fun n : ℕ => (n : ℚ)) hNden
  by_cases hsg : q.num < 0
  · rw [if_pos hsg]
    simp only [ratOfMK]
    rw [div_eq_iff hpow0]
    have habs : (q.num.natAbs : ℚ) = -(q.num : ℚ) := by
      have h2 : (q.num.natAbs : ℤ) = -q.num := Int.ofNat_natAbs_of_nonpos (le_of_lt hsg)
      rw [show ((q.num.natAbs : ℚ)) = ((q.num.natAbs : ℤ) : ℚ) from
        (Int.cast_natCast _).symm, h2, Int.cast_neg]
    rw [Int.cast_neg, Int.cast_natCast]
    refine mul_right_cancel₀ hden0 ?_
    calc -(((q.num.natAbs * 10 ^ q.den / q.den : ℕ) : ℚ)) * (q.den : ℚ)
        = -(((q.num.natAbs * 10 ^ q.den / q.den : ℕ) : ℚ) * (q.den : ℚ)) := by ring
      _ = -((q.num.natAbs : ℚ) * 10 ^ q.den) := by rw [hNq]
      _ = (q.num : ℚ) * 10 ^ q.den := by rw [habs]; ring
      _ = (q * (q.den : ℚ)) * 10 ^ q.den := by rw [← hqd]
      _ = q * 10 ^ q.den * (q.den : ℚ) := by ring
  · rw [if_neg hsg]
    simp only [ratOfMK]
    rw [div_eq_iff hpow0]
    have habs : (q.num.natAbs : ℚ) = (q.num : ℚ) := by
      have h2 : (q.num.natAbs : ℤ) = q.num := Int.natAbs_of_nonneg (not_lt.mp hsg)
      rw [show ((q.num.natAbs : ℚ)) = ((q.num.natAbs : ℤ) : ℚ) from
        (Int.cast_natCast _).symm, h2]
    rw [Int.cast_natCast]
    refine mul_right_cancel₀ hden0 ?_
    calc ((q.num.natAbs * 10 ^ q.den / q.den : ℕ) : ℚ) * (q.den : ℚ)
        = (q.num.natAbs : ℚ) * 10 ^ q.den := hNq
      _ = (q.num : ℚ) * 10 ^ q.den := by rw [habs]
      _ = (q * (q.den : ℚ)) * 10 ^ q.den := by rw [← hqd]
      _ = q * 10 ^ q.den * (q.den : ℚ) := by ring

lemma parseCurrency_decimal (v : Option String) :
    ∃ (m : ℤ) (k : ℕ), parseCurrency v = (m : ℚ) / 10 ^ k := by
  cases v with
  | none => exact ⟨0, 0, by simp [parseCurrency]⟩
  | some s =>
    by_cases hs : s = ""
    · exact ⟨0, 0, by simp [parseCurrency, hs]⟩
    · cases hmk : parseFloatMK (normalizeCurrency s.data) with
      | none => exact ⟨0, 0, by simp [parseCurrency, hs, hmk, ratOfMK]⟩
      | some t =>
        obtain ⟨m, k⟩ := t
        exact ⟨m, k, by simp [parseCurrency, hs, hmk, ratOfMK]⟩

lemma dvd_ten_pow_self {d k : ℕ} (h : d ∣ 10 ^ k) : d ∣ 10 ^ d := by
  have hd0 : d ≠ 0 := by
    rintro rfl
    exact absurd (Nat.zero_dvd.mp h) (pow_ne_zero k (by norm_num))
  rw [← Nat.factorization_le_iff_dvd hd0 (pow_ne_zero _ (by norm_num))]
  have h1 := (Nat.factorization_le_iff_dvd hd0 (pow_ne_zero _ (by norm_num : (10:ℕ) ≠ 0))).mpr h
  rw [Finsupp.le_def] at h1 ⊢
  intro p
  rw [Nat.factorization_pow]
  simp only [Finsupp.smul_apply, smul_eq_mul]
  by_cases hp : d.factorization p = 0
  · simp [hp]
  · have h2 := h1 p
    rw [Nat.factorization_pow] at h2
    simp only [Finsupp.smul_apply, smul_eq_mul] at h2
    have h10 : 1 ≤ Nat.factorization 10 p := by
      by_contra h0
      push_neg at h0
      have h00 : Nat.factorization 10 p = 0 := by omega
      rw [h00, Nat.mul_zero] at h2
      exact hp (Nat.le_zero.mp h2)
    have hlt : d.factorization p < d := Nat.factorization_lt p hd0
    calc d.factorization p ≤ d := hlt.le
      _ ≤ d * Nat.factorization 10 p := le_mul_of_one_le_right (Nat.zero_le d) h10

lemma parseCurrency_den_dvd (v : Option String) :
    (parseCurrency v).den ∣ 10 ^ (parseCurrency v).den := by
  obtain ⟨m, k, hmk⟩ := parseCurrency_decimal v
  have heq : parseCurrency v = Rat.divInt m ((10 : ℤ) ^ k) := by
    rw [hmk, Rat.divInt_eq_div]
    push_cast
    ring
  have h1 : ((parseCurrency v).den : ℤ) ∣ (10 : ℤ) ^ k := by
    rw [heq]
    exact Rat.den_dvd m _
  have h2 : (parseCurrency v).den ∣ 10 ^ k := by exact_mod_cast h1
  exact dvd_ten_pow_self h2

/-! ### Claim C3: digit-free input -/

lemma replaceFirst_mem {l : List Char} {a b c : Char}
    (h : c ∈ replaceFirst l a b) : c ∈ l ∨ c = b := by
  induction l with
  | nil => cases h
  | cons x t ih =>
    rw [replaceFirst_cons] at h
    by_cases hx : x = a
    · rw [if_pos hx] at h
      rcases List.mem_cons.mp h with h | h
      · right; exact h
      · left; exact List.mem_cons_of_mem x h
    · rw [if_neg hx] at h
      rcases List.mem_cons.mp h with h | h
      · left; rw [h]; exact List.mem_cons_self x t
      · rcases ih h with h | h
        · left; exact List.mem_cons_of_mem x h
        · right; exact h

lemma takeWhile_digits_nil (l : List Char) (h : ∀ c ∈ l, c.isDigit = false) :
    l.takeWhile Char.isDigit = [] := by
  cases l with
  | nil => rfl
  | cons c t =>
    rw [List.takeWhile_cons, if_neg (by simp [h c (List.mem_cons_self c t)])]

lemma dropWhile_digits_self (l : List Char) (h : ∀ c ∈ l, c.isDigit = false) :
    l.dropWhile Char.isDigit = l := by
  cases l with
  | nil => rfl
  | cons c t =>
    rw [List.dropWhile_cons, if_neg (by simp [h c (List.mem_cons_self c t)])]

lemma parseFloatMK_no_digit (cs : List Char) (h : ∀ c ∈ cs, c.isDigit = false) :
    parseFloatMK cs = none := by
  have hrest : ∀ c ∈ (if cs.head? = some '-' then cs.tail else cs), c.isDigit = false := by
    intro c hc
    by_cases hh : cs.head? = some '-'
    · rw [if_pos hh] at hc
      exact h c (List.mem_of_mem_tail hc)
    · rw [if_neg hh] at hc
      exact h c hc
  have htw := takeWhile_digits_nil _ hrest
  have hdw := dropWhile_digits_self _ hrest
  have hfrac : ∀ c ∈ (if cs.head? = some '-' then cs.tail else cs).tail,
      c.isDigit = false := fun c hc => hrest c (List.mem_of_mem_tail hc)
  simp only [parseFloatMK, htw, hdw]
  by_cases hh : (if cs.head? = some '-' then cs.tail else cs).head? = some '.'
  · rw [if_pos hh, takeWhile_digits_nil _ hfrac]
    rfl
  · rw [if_neg hh]
    rfl

lemma parseCurrency_no_digit (s : String) (h : ∀ c ∈ s.data, c.isDigit = false) :
    parseCurrency (some s) = 0 := by
  by_cases hs : s = ""
  · simp [parseCurrency, hs]
  · have hnorm : ∀ c ∈ normalizeCurrency s.data, c.isDigit = false := by
      intro c hc
      unfold normalizeCurrency at hc
      have hc1 := (List.mem_filter.mp hc).1
      rcases replaceFirst_mem hc1 with hc2 | hc2
      · exact h c (List.mem_filter.mp hc2).1
      · rw [hc2]; decide
    simp [parseCurrency, hs, parseFloatMK_no_digit _ hnorm, ratOfMK]

/-! ### Claim C3: the theorem -/

/-- Claim C3: currency parsing on the locale decimal format — `"1234,56"`
and `"1.234,56"` both parse to `1234.56`; the empty string, an absent cell
and digit-free text parse to `0`; and for every input, rendering the parse
result back to normalized decimal text (decimal comma, no thousands
separators) and re-parsing returns the same number (idempotence on
normalized decimal text). -/
theorem claimC3_currency_parsing :
    parseCurrency (some "1234,56") = 1234.56
    ∧ parseCurrency (some "1.234,56") = 1234.56
    ∧ parseCurrency (some "") = 0
    ∧ parseCurrency none = 0
    ∧ (∀ s : String, (∀ c ∈ s.data, c.isDigit = false) → parseCurrency (some s) = 0)
    ∧ ∀ v : Option String,
        parseCurrency (some (renderDecimal (parseCurrency v))) = parseCurrency v := by
  refine ⟨?_, ?_, rfl, rfl, parseCurrency_no_digit, ?_⟩
  · have h : parseFloatMK (normalizeCurrency "1234,56".data) = some (123456, 2) := by
      decide
    have h2 : parseCurrency (some "1234,56") = ratOfMK (some (123456, 2)) := by
      simp [parseCurrency, h]
    rw [h2]
    show ((123456 : ℤ) : ℚ) / 10 ^ 2 = 1234.56
    norm_num
  · have h : parseFloatMK (normalizeCurrency "1.234,56".data) = some (123456, 2) := by
      decide
    have h2 : parseCurrency (some "1.234,56") = ratOfMK (some (123456, 2)) := by
      simp [parseCurrency, h]
    rw [h2]
    show ((123456 : ℤ) : ℚ) / 10 ^ 2 = 1234.56
    norm_num
  · intro v
    exact parseCurrency_renderDecimal _ (parseCurrency_den_dvd v)

theorem claimC3_witness :
    (∀ c ∈ ("zR$ *" : String).data, c.isDigit = false)
    ∧ parseCurrency (some "zR$ *") = 0 :=
  ⟨by decide, claimC3_currency_parsing.2.2.2.2.1 "zR$ *" (by decide)⟩

end ImportGoogleSheets
